import Mathlib

/-
  Verification development for the discord-iot-bot repository.

  Shallow embedding of the IoT domain models, cloud client, push-bus handling,
  debounce mechanism, panel persistence and the presence-driven room-close
  workflow, with theorems settling the frozen specification claims.
-/

namespace IoTSpec

/-- Dynamic (Python-style) values carried by device status codes and
stored in a Socket's live fields (`setattr` assigns untyped values). -/
inductive PyVal
  | vBool (b : Bool)
  | vInt (n : Int)
  | vStr (s : String)
deriving DecidableEq, Repr

/-- `tuya/models.py DeviceStatusValue`: one (code, value) pair of a status report. -/
structure DeviceStatusValue where
  code : String
  value : PyVal
deriving DecidableEq, Repr

/-- `tuya/models.py DeviceListResult`: an immutable device inventory snapshot. -/
structure DeviceListResult where
  active_time : Int
  asset_id : String
  category : String
  category_name : String
  create_time : Int
  gateway_id : String
  icon : String
  id : String
  ip : String
  lat : String
  local_key : String
  lon : String
  model : String
  name : String
  online : Bool
  product_id : String
  product_name : String
  sub : Bool
  time_zone : String
  update_time : Int
  uuid : String
deriving DecidableEq, Repr

/-- `tuya/models.py Socket`: a device snapshot plus mutable live state
(`value`, `voltage`, `current`, `power`, `countdown`). -/
structure Socket where
  name : String
  gateway_id : String
  asset_id : String
  id : String
  icon : String
  category : String
  category_name : String
  model : String
  online : Bool
  product_name : String
  product_id : String
  ip : String
  value : PyVal
  voltage : PyVal
  current : PyVal
  power : PyVal
  countdown : PyVal
deriving DecidableEq, Repr

/-- `Socket.__init__`: construct a Socket from a device snapshot with zeroed live state. -/
def Socket.ofDevice (d : DeviceListResult) : Socket where
  name := d.name
  gateway_id := d.gateway_id
  asset_id := d.asset_id
  id := d.id
  icon := d.icon
  category := d.category
  category_name := d.category_name
  model := d.model
  online := d.online
  product_name := d.product_name
  product_id := d.product_id
  ip := d.ip
  value := .vBool false
  voltage := .vInt 0
  current := .vInt 0
  power := .vInt 0
  countdown := .vInt 0

/-- One iteration of the loop body of `Socket.update_from_status`: the fixed
`attrs` mapping `switch_1→value`, `countdown_1→countdown`, `cur_current→current`,
`cur_voltage→voltage`, `cur_power→power`; codes outside the mapping do nothing. -/
def Socket.applyStatusValue (s : Socket) (sv : DeviceStatusValue) : Socket :=
  if sv.code = "switch_1" then { s with value := sv.value }
  else if sv.code = "countdown_1" then { s with countdown := sv.value }
  else if sv.code = "cur_current" then { s with current := sv.value }
  else if sv.code = "cur_voltage" then { s with voltage := sv.value }
  else if sv.code = "cur_power" then { s with power := sv.value }
  else s

/-- `tuya/models.py Socket.update_from_status`: apply every (code, value) pair
of a status report in order via the fixed code→field mapping. -/
def Socket.update_from_status (s : Socket) (status : List DeviceStatusValue) : Socket :=
  status.foldl Socket.applyStatusValue s

/-- The value assigned by the last occurrence of `code` in a status list
(later occurrences overwrite earlier ones in the `setattr` loop). -/
def lastCode (code : String) (status : List DeviceStatusValue) : Option PyVal :=
  status.foldl (fun acc sv => if sv.code = code then some sv.value else acc) none

/-- `tuya/models.py CursorPage`: one page of the cursor-paginated device
inventory listing. -/
structure CursorPage where
  has_more : Bool
  list : List DeviceListResult
  total : Int
  last_row_key : Option String := none
deriving DecidableEq, Repr

/-- `tuya/client.py TuyaClient.fetch_devices_info`, with the sequence of cloud
responses made explicit: each loop iteration consumes the next response page,
extends the result with that page's list, and stops once a page reports
`has_more = false`. -/
def fetch_devices_info : List CursorPage → List DeviceListResult
  | [] => []
  | p :: rest => p.list ++ (if p.has_more then fetch_devices_info rest else [])

/-- The `last_row_key` request parameter: absent on the first request, set to the
previous page's continuation cursor afterwards. -/
inductive ReqCursor
  | absent
  | key (k : Option String)
deriving DecidableEq, Repr

/-- The cursor parameter carried by each request the `fetch_devices_info` loop
issues, one entry per consumed response page. -/
def fetch_requests (c : ReqCursor) : List CursorPage → List ReqCursor
  | [] => []
  | p :: rest =>
      c :: (if p.has_more then fetch_requests (.key p.last_row_key) rest else [])

/-- A cloud REST response envelope (`success`, `code`, `msg`, `result`). -/
structure CloudResult where
  success : Bool
  code : Int
  msg : String
  result : PyVal
deriving DecidableEq, Repr

/-- `tuya/errors.py`: `TuyaError(code, msg)` with specialization
`TuyaMissingPermissions` (the spec's CloudError / MissingPermissions); both
store the platform code and message verbatim. -/
inductive TuyaErr
  | missingPermissions (code : Int) (msg : String)
  | tuyaError (code : Int) (msg : String)
deriving DecidableEq, Repr

/-- `tuya/client.py TuyaClient.handle_result`: failure envelopes raise
`TuyaMissingPermissions` when the code is 1106 and `TuyaError` otherwise;
successful envelopes are returned unchanged. -/
def handle_result (r : CloudResult) : Except TuyaErr CloudResult :=
  if ¬ r.success then
    if r.code = 1106 then .error (.missingPermissions r.code r.msg)
    else .error (.tuyaError r.code r.msg)
  else .ok r

/-- A device command (code, value) pair as sent to
`POST /v1.0/iot-03/devices/{id}/commands`. -/
structure DeviceCommand where
  code : String
  value : PyVal
deriving DecidableEq, Repr

/-- `tuya/client.py TuyaClient.set_device_value`: the commands body is built
from the requested value and countdown alone — the cached device state
(available through `self._sockets_infos`) is never consulted, so the command is
issued unconditionally. -/
def set_device_value_commands (cache : List (String × Socket)) (device_id : String)
    (value : Bool) (countdown : Int) : List DeviceCommand :=
  [⟨"switch_1", .vBool value⟩, ⟨"countdown_1", .vInt countdown⟩]

/-- Modelled from the spec: the `ControlRoom` workflow class that
`core/client.py` imports from `core.models` is absent from `src` (the
`core/models.py` present is a stale revision whose `CloseRoom.ask` references
an undefined `prompt`). Per §4.8, on an affirmative answer the workflow issues
a device-off command (value false, countdown 0) to the designated socket, but
only if the socket is not already off with countdown 0. -/
def room_close_commands (sock : Socket) : List DeviceCommand :=
  if sock.value = PyVal.vBool false ∧ sock.countdown = PyVal.vInt 0 then []
  else set_device_value_commands [] sock.id false 0

/-- `tuya/models.py ReportDeviceStatusData`: payload of a protocol-4
("report status") push-bus frame. -/
structure ReportDeviceStatusData where
  data_id : String
  dev_id : String
  product_key : String
  status : List DeviceStatusValue
deriving DecidableEq, Repr

/-- `tuya/models.py`: decoded `bizData` of a protocol-20 frame — `GoPresence`
for biz codes `online`/`offline`, the opaque `Protocol20Identity` otherwise. -/
inductive BizData
  | presence (time : Int)
  | identity (etc : List (String × String))
deriving DecidableEq, Repr

/-- `tuya/models.py Protocol20`: payload of a protocol-20 ("biz event")
push-bus frame. -/
structure Protocol20 where
  dev_id : String
  product_key : String
  biz_code : String
  biz_data : BizData
deriving DecidableEq, Repr

/-- The protocol-specific payload carried by a decoded push-bus envelope. -/
inductive ProtocolData
  | report (r : ReportDeviceStatusData)
  | biz (b : Protocol20)
deriving DecidableEq, Repr

/-- `tuya/models.py WebSocketProtocol`: a decoded push-bus envelope. -/
structure WebSocketProtocol where
  protocol : Int
  pv : String
  t : Int
  data : ProtocolData
  sign : String
deriving DecidableEq, Repr

/-- A raw push-bus frame as received by `TuyaClient.on_message`: the factory
mapping `{4: ReportDeviceStatusData, 20: Protocol20}` decodes protocols 4 and
20; any other protocol number is ignored. -/
inductive PushFrame
  | report (pv : String) (t : Int) (sign : String) (r : ReportDeviceStatusData)
  | biz (pv : String) (t : Int) (sign : String) (b : Protocol20)
  | unknown (protocol : Int)
deriving DecidableEq, Repr

/-- Decoding step of `on_message`: frames whose protocol is in the factory
mapping become a `WebSocketProtocol` envelope; others produce nothing. -/
def decode_frame : PushFrame → Option WebSocketProtocol
  | .report pv t sign r => some ⟨4, pv, t, .report r, sign⟩
  | .biz pv t sign b => some ⟨20, pv, t, .biz b, sign⟩
  | .unknown _ => none

/-- Point update of the device cache (`id → Socket` mapping). -/
def cache_update (cache : List (String × Socket)) (id : String)
    (f : Socket → Socket) : List (String × Socket) :=
  cache.map (fun p => if p.1 = id then (p.1, f p.2) else p)

/-- `tuya/client.py TuyaClient._process_socket`: protocol-4 frames update the
cached socket from the reported status and schedule a debounced refresh,
silently dropping uncached device ids; protocol-20 frames with a presence
payload update the cached socket's online flag likewise; everything else is a
no-op. Returns the new cache and the device ids passed to
`bot.update_device`. -/
def process_socket (cache : List (String × Socket)) (p : WebSocketProtocol) :
    List (String × Socket) × List String :=
  if p.protocol = 4 then
    match p.data with
    | .report d =>
        match cache.lookup d.dev_id with
        | none => (cache, [])
        | some _ =>
            (cache_update cache d.dev_id (fun s => s.update_from_status d.status),
             [d.dev_id])
    | .biz _ => (cache, [])
  else if p.protocol = 20 then
    match p.data with
    | .biz d =>
        match d.biz_data with
        | .presence _ =>
            match cache.lookup d.dev_id with
            | none => (cache, [])
            | some _ =>
                (cache_update cache d.dev_id
                  (fun s => { s with online := d.biz_code = "online" }),
                 [d.dev_id])
        | .identity _ => (cache, [])
    | .report _ => (cache, [])
  else (cache, [])

/-- `tuya/client.py TuyaClient.on_message`: decode the frame when its protocol
is recognized, run `_process_socket`, and dispatch the decoded envelope as a
socket event; unrecognized protocols are logged and dropped. Returns the new
cache, the refresh-scheduled device ids, and the dispatched envelopes. -/
def on_message (cache : List (String × Socket)) (f : PushFrame) :
    List (String × Socket) × List String × List WebSocketProtocol :=
  match decode_frame f with
  | some payload =>
      ((process_socket cache payload).1, (process_socket cache payload).2, [payload])
  | none => (cache, [], [])

/-- One deferred panel-refresh task created by `IoTBot.update_device`
(`core/client.py`): it fires `dispatch_update` for its device id 1000 ms
(`asyncio.sleep(1)`) after its trigger unless cancelled first. -/
structure RefreshTask where
  dev_id : String
  fire_at : Nat
  cancelled : Bool
  fired : Bool
deriving DecidableEq, Repr

/-- Event-loop progress up to time `now` (in ms): every task that is neither
cancelled nor fired and whose deadline has passed performs its refresh. -/
def fire_due (now : Nat) (tasks : List RefreshTask) : List RefreshTask :=
  tasks.map (fun task =>
    if task.cancelled = false ∧ task.fired = false ∧ task.fire_at ≤ now then
      { task with fired := true }
    else task)

/-- `core/client.py IoTBot.update_device` at time `now`: cancel the pending
task recorded for this device id (cancelling an already-completed task is a
no-op) and schedule a fresh deferred refresh for 1000 ms later. -/
def update_device (tasks : List RefreshTask) (now : Nat) (dev_id : String) :
    List RefreshTask :=
  let current := fire_due now tasks
  let afterCancel := current.map (fun task =>
    if task.dev_id = dev_id ∧ task.cancelled = false ∧ task.fired = false then
      { task with cancelled := true }
    else task)
  afterCancel ++ [⟨dev_id, now + 1000, false, false⟩]

/-- Run a chronological sequence of update triggers `(time, device id)`
through `update_device`, starting with no tasks. -/
def run_updates (trigs : List (Nat × String)) : List RefreshTask :=
  trigs.foldl (fun tasks trig => update_device tasks trig.1 trig.2) []

/-- A task is pending ("active") for a device id when it is recorded for that
id and has neither been cancelled nor performed its refresh. -/
def task_active (dev_id : String) (task : RefreshTask) : Bool :=
  task.dev_id = dev_id ∧ task.cancelled = false ∧ task.fired = false

/-- A presence state event as dispatched to the room-close workflow. -/
inductive PresenceState
  | connected
  | disconnected
deriving DecidableEq, Repr

/-- Room-close workflow state: an optional armed prompt deadline (absolute
time, seconds) and the number of confirmation prompts issued so far. -/
structure RoomState where
  deadline : Option Nat
  prompts : Nat
deriving DecidableEq, Repr

/-- Advance the workflow clock to `now`: an armed timer whose 60-second wait
has elapsed un-cancelled issues its confirmation prompt. Prompt issuance is
modelled from the spec (§4.8): the `ControlRoom` class used by
`core/client.py` is absent from `src`; the timer discipline matches the
`CloseRoom` revision in `core/models.py` (`wait_until_action` sleeps 60 s and
then asks). -/
def room_fire (st : RoomState) (now : Nat) : RoomState :=
  match st.deadline with
  | some d => if d ≤ now then { deadline := none, prompts := st.prompts + 1 } else st
  | none => st

/-- `core/client.py IoTBot.on_state` plus `CloseRoom.cancel`/`CloseRoom.do`:
a "connected" event cancels the pending timer; a "disconnected" event
(re)starts the 60-second timer, cancelling any timer already running. -/
def room_step (st : RoomState) (ev : Nat × PresenceState) : RoomState :=
  let st1 := room_fire st ev.1
  match ev.2 with
  | .connected => { st1 with deadline := none }
  | .disconnected => { st1 with deadline := some (ev.1 + 60) }

/-- Run the room-close workflow over a chronological presence-event trace and
then let the clock advance to `horizon`. -/
def room_run (evs : List (Nat × PresenceState)) (horizon : Nat) : RoomState :=
  room_fire (evs.foldl room_step ⟨none, 0⟩) horizon

/-- Outcome of one presence-socket connection attempt. -/
inductive ConnOutcome
  | ok
  | forbidden
  | failure
deriving DecidableEq, Repr

/-- Observable actions of the presence client's reconnect loop: a connection
attempt using a token, a credential exchange producing a fresh token, or an
exponential-backoff sleep. -/
inductive PresenceAction
  | attempt (token : Nat)
  | reauth
  | delay (ms : Nat)
deriving DecidableEq, Repr

/-- Presence-client loop state: backoff level and current token version. -/
structure PresenceSt where
  level : Nat
  token : Nat
deriving DecidableEq, Repr

/-- Modelled from the spec (§4.9): the presence client revision with
authentication, 403 handling and exponential backoff is absent from `src`
(the `Webserver` in `core/models.py` is a stale localhost revision without
auth). State transition after one connection attempt: success resets the
backoff; a 403 re-runs the credential exchange (fresh token), bypassing the
backoff; any other failure increments the backoff level. -/
def presence_step (st : PresenceSt) : ConnOutcome → PresenceSt
  | .ok => ⟨0, st.token⟩
  | .forbidden => ⟨st.level, st.token + 1⟩
  | .failure => ⟨st.level + 1, st.token⟩

/-- Modelled from the spec (§4.9): the actions emitted for one connection
attempt — the attempt itself, then a re-authentication (403, no backoff
delay) or an exponential-backoff delay (other failures). -/
def presence_actions (st : PresenceSt) : ConnOutcome → List PresenceAction
  | .ok => [.attempt st.token]
  | .forbidden => [.attempt st.token, .reauth]
  | .failure => [.attempt st.token, .delay (2 ^ st.level)]

/-- Modelled from the spec (§4.9): the action trace of the reconnect loop over
a script of connection outcomes. -/
def presence_trace (st : PresenceSt) : List ConnOutcome → List PresenceAction
  | [] => []
  | o :: rest => presence_actions st o ++ presence_trace (presence_step st o) rest

/-- Loop state after consuming a script of connection outcomes. -/
def presence_after (st : PresenceSt) (outs : List ConnOutcome) : PresenceSt :=
  outs.foldl presence_step st

/-- One persisted row of the `device_info_view` table. -/
structure BindingRow where
  device_id : String
  author_id : Int
  message_id : Int
  channel_id : Int
deriving DecidableEq, Repr

/-- The in-memory `ViewDataDevice` entry of `core/views.py`, reduced to plain
locators (message id, channel id, bound author id). -/
structure ViewData where
  message_id : Int
  channel_id : Int
  author_id : Int
deriving DecidableEq, Repr

/-- Joint panel-binding state: the persisted `device_info_view` rows, the
in-memory `_socket_data` map (device id → view data), and the chat messages
deleted so far. -/
structure PanelState where
  db : List BindingRow
  mem : List (String × ViewData)
  deleted : List Int
deriving DecidableEq, Repr

/-- `core/views.py DeviceControl.store_data`: when an in-memory binding exists
for the device, delete its prior panel message and the device's persisted
rows, then insert the new row and point the in-memory entry at the new
message; otherwise insert the new row and register a fresh in-memory entry. -/
def store_data (st : PanelState) (author : Int) (device_id : String)
    (mid chid : Int) : PanelState :=
  match st.mem.lookup device_id with
  | some vd =>
      { db := st.db.filter (fun r => r.device_id ≠ device_id)
              ++ [⟨device_id, author, mid, chid⟩]
        mem := st.mem.map (fun p =>
                 if p.1 = device_id then (p.1, ⟨mid, chid, author⟩) else p)
        deleted := st.deleted ++ [vd.message_id] }
  | none =>
      { db := st.db ++ [⟨device_id, author, mid, chid⟩]
        mem := st.mem ++ [(device_id, ⟨mid, chid, author⟩)]
        deleted := st.deleted }

/-- The panel-binding invariant: device ids are unique across persisted rows
(at most one row per device) and every persisted row has an in-memory
binding. -/
def PanelInv (st : PanelState) : Prop :=
  (st.db.map (fun r => r.device_id)).Nodup ∧
  ∀ r ∈ st.db, (st.mem.lookup r.device_id).isSome = true

/-- A device inventory snapshot with the given id and defaulted remaining
fields, used to instantiate theorems at concrete inputs. -/
def sample_device (id : String) : DeviceListResult :=
  ⟨0, "", "", "", 0, "", "", id, "", "", "", "", "", "", false, "", "", false, "", 0, ""⟩

theorem Socket.ext_fields (a b : Socket)
    (h1 : a.name = b.name) (h2 : a.gateway_id = b.gateway_id)
    (h3 : a.asset_id = b.asset_id) (h4 : a.id = b.id) (h5 : a.icon = b.icon)
    (h6 : a.category = b.category) (h7 : a.category_name = b.category_name)
    (h8 : a.model = b.model) (h9 : a.online = b.online)
    (h10 : a.product_name = b.product_name) (h11 : a.product_id = b.product_id)
    (h12 : a.ip = b.ip) (h13 : a.value = b.value) (h14 : a.voltage = b.voltage)
    (h15 : a.current = b.current) (h16 : a.power = b.power)
    (h17 : a.countdown = b.countdown) : a = b := by
  cases a; cases b; simp_all

theorem lastCode_foldl_init (code : String) (status : List DeviceStatusValue)
    (o : Option PyVal) :
    status.foldl (fun acc sv => if sv.code = code then some sv.value else acc) o
      = (lastCode code status).orElse (fun _ => o) := by
  induction status generalizing o with
  | nil => simp [lastCode]
  | cons x rest ih =>
    have h1 : lastCode code (x :: rest)
        = List.foldl (fun acc sv => if sv.code = code then some sv.value else acc)
            (if x.code = code then some x.value else none) rest := rfl
    have h2 : List.foldl (fun acc sv => if sv.code = code then some sv.value else acc)
          o (x :: rest)
        = List.foldl (fun acc sv => if sv.code = code then some sv.value else acc)
            (if x.code = code then some x.value else o) rest := rfl
    rw [h2, ih, h1, ih (if x.code = code then some x.value else none)]
    by_cases hx : x.code = code <;>
      simp only [if_pos, if_neg, hx, if_true, if_false] <;>
      cases lastCode code rest <;> simp [Option.orElse]

theorem lastCode_cons (code : String) (x : DeviceStatusValue)
    (rest : List DeviceStatusValue) :
    lastCode code (x :: rest)
      = (lastCode code rest).orElse
          (fun _ => if x.code = code then some x.value else none) := by
  simp only [lastCode, List.foldl_cons]
  exact lastCode_foldl_init code rest _

/-- Characterization of `update_from_status`: each live field takes the value of
the last matching code in the status (when present) and every other field is
unchanged. -/
theorem update_from_status_eq (s : Socket) (status : List DeviceStatusValue) :
    s.update_from_status status =
      { s with
        value := (lastCode "switch_1" status).getD s.value
        countdown := (lastCode "countdown_1" status).getD s.countdown
        current := (lastCode "cur_current" status).getD s.current
        voltage := (lastCode "cur_voltage" status).getD s.voltage
        power := (lastCode "cur_power" status).getD s.power } := by
  induction status generalizing s with
  | nil => simp [Socket.update_from_status, lastCode]
  | cons x rest ih =>
    show Socket.update_from_status (s.applyStatusValue x) rest = _
    rw [ih]
    apply Socket.ext_fields <;>
      simp only [Socket.applyStatusValue, lastCode_cons] <;>
      split_ifs with h1 h2 h3 h4 h5 <;>
      simp_all <;>
      (cases hl : lastCode "switch_1" rest <;>
       cases hl2 : lastCode "countdown_1" rest <;>
       cases hl3 : lastCode "cur_current" rest <;>
       cases hl4 : lastCode "cur_voltage" rest <;>
       cases hl5 : lastCode "cur_power" rest <;>
       simp_all [Option.orElse])

theorem getD_idem (o : Option PyVal) (a : PyVal) : o.getD (o.getD a) = o.getD a := by
  cases o <;> rfl

/-- C5: applying a device status to a Socket sets exactly the live fields given
by the fixed mapping switch_1→value, countdown_1→countdown,
cur_current→current, cur_voltage→voltage, cur_power→power for the codes
present in the status (last occurrence winning), ignores every code outside
that mapping, and leaves all other Socket fields unchanged. -/
theorem claim_C5_status_mapping (s : Socket) (status : List DeviceStatusValue) :
    s.update_from_status status =
      { s with
        value := (lastCode "switch_1" status).getD s.value
        countdown := (lastCode "countdown_1" status).getD s.countdown
        current := (lastCode "cur_current" status).getD s.current
        voltage := (lastCode "cur_voltage" status).getD s.voltage
        power := (lastCode "cur_power" status).getD s.power } :=
  update_from_status_eq s status

/-- C6: applying the same status twice via update_from_status yields exactly
the same Socket fields as applying it once. -/
theorem claim_C6_idempotent (s : Socket) (status : List DeviceStatusValue) :
    (s.update_from_status status).update_from_status status
      = s.update_from_status status := by
  rw [update_from_status_eq s status, update_from_status_eq]
  apply Socket.ext_fields <;> first | rfl | exact getD_idem _ _

/-- C7: a failure envelope with code 1106 raises TuyaMissingPermissions, a
failure envelope with any other code raises TuyaError, both carrying the
platform's code and message verbatim; a success envelope is returned
unchanged. -/
theorem claim_C7_handle_result (r : CloudResult) :
    (r.success = false → r.code = 1106 →
        handle_result r = .error (.missingPermissions r.code r.msg)) ∧
    (r.success = false → r.code ≠ 1106 →
        handle_result r = .error (.tuyaError r.code r.msg)) ∧
    (r.success = true → handle_result r = .ok r) := by
  refine ⟨fun hs hc => ?_, fun hs hc => ?_, fun hs => ?_⟩
  · simp [handle_result, hs, hc]
  · simp [handle_result, hs, hc]
  · simp [handle_result, hs]

theorem claim_C7_handle_result_witness :
    handle_result ⟨false, 1106, "no scope", .vInt 0⟩
        = .error (.missingPermissions 1106 "no scope") ∧
    handle_result ⟨false, 500, "boom", .vInt 0⟩
        = .error (.tuyaError 500 "boom") ∧
    handle_result ⟨true, 0, "fine", .vInt 7⟩ = .ok ⟨true, 0, "fine", .vInt 7⟩ :=
  ⟨(claim_C7_handle_result _).1 rfl rfl,
   (claim_C7_handle_result _).2.1 rfl (by decide),
   (claim_C7_handle_result _).2.2 rfl⟩

/-- C4: the device-inventory fetch returns the concatenation of every page's
list in request order, carries each page's continuation cursor into the next
request, and stops exactly after the first page with has_more = false; for
pages with has_more = true, true, false it returns the three lists in order. -/
theorem claim_C4_pagination (p1 p2 p3 : CursorPage) (rest : List CursorPage)
    (h1 : p1.has_more = true) (h2 : p2.has_more = true)
    (h3 : p3.has_more = false) :
    fetch_devices_info (p1 :: p2 :: p3 :: rest) = p1.list ++ p2.list ++ p3.list ∧
    fetch_requests .absent (p1 :: p2 :: p3 :: rest)
      = [.absent, .key p1.last_row_key, .key p2.last_row_key] ∧
    (∀ (p : CursorPage) (more : List CursorPage), p.has_more = false →
        fetch_devices_info (p :: more) = p.list) := by
  refine ⟨?_, ?_, fun p more hp => ?_⟩
  · simp [fetch_devices_info, h1, h2, h3, List.append_assoc]
  · simp [fetch_requests, h1, h2, h3]
  · simp [fetch_devices_info, hp]

theorem claim_C4_pagination_witness :
    fetch_devices_info
        [⟨true, [sample_device "a"], 3, some "k1"⟩,
         ⟨true, [sample_device "b"], 3, some "k2"⟩,
         ⟨false, [sample_device "c"], 3, none⟩]
      = [sample_device "a", sample_device "b", sample_device "c"] ∧
    fetch_requests .absent
        [⟨true, [sample_device "a"], 3, some "k1"⟩,
         ⟨true, [sample_device "b"], 3, some "k2"⟩,
         ⟨false, [sample_device "c"], 3, none⟩]
      = [.absent, .key (some "k1"), .key (some "k2")] :=
  ⟨((claim_C4_pagination _ _ _ [] rfl rfl rfl).1).trans rfl,
   (claim_C4_pagination _ _ _ [] rfl rfl rfl).2.1⟩

/-- C2: set_device_value builds its command body from the requested value and
countdown alone — it issues the command whatever the cached device state —
while the room-close workflow skips the close command exactly when the
designated socket is already off (value false) with countdown 0. -/
theorem claim_C2_actuation :
    (∀ (cache : List (String × Socket)) (device_id : String) (v : Bool) (cd : Int),
        set_device_value_commands cache device_id v cd
          = [⟨"switch_1", .vBool v⟩, ⟨"countdown_1", .vInt cd⟩]) ∧
    (∀ sock : Socket, sock.value = .vBool false → sock.countdown = .vInt 0 →
        room_close_commands sock = []) ∧
    (∀ sock : Socket, ¬ (sock.value = PyVal.vBool false ∧ sock.countdown = PyVal.vInt 0) →
        room_close_commands sock
          = [⟨"switch_1", .vBool false⟩, ⟨"countdown_1", .vInt 0⟩]) := by
  refine ⟨fun cache device_id v cd => rfl, fun sock h1 h2 => ?_, fun sock h => ?_⟩
  · simp [room_close_commands, h1, h2]
  · simp [room_close_commands, set_device_value_commands, h]

theorem claim_C2_actuation_witness :
    set_device_value_commands [] "dev" false 0
        = [⟨"switch_1", .vBool false⟩, ⟨"countdown_1", .vInt 0⟩] ∧
    room_close_commands (Socket.ofDevice (sample_device "a")) = [] ∧
    room_close_commands
        { Socket.ofDevice (sample_device "a") with value := .vBool true }
      = [⟨"switch_1", .vBool false⟩, ⟨"countdown_1", .vInt 0⟩] :=
  ⟨claim_C2_actuation.1 [] "dev" false 0,
   claim_C2_actuation.2.1 _ rfl rfl,
   claim_C2_actuation.2.2 _ (by decide)⟩

/-- C10: a protocol-4 or protocol-20 push-bus frame whose device id is not in
the device cache leaves the cache unchanged and schedules no panel refresh,
yet its decoded envelope is still dispatched as a socket event. -/
theorem claim_C10_uncached_frames (cache : List (String × Socket)) (pv : String)
    (t : Int) (sign : String) (r : ReportDeviceStatusData) (b : Protocol20) :
    (cache.lookup r.dev_id = none →
        on_message cache (.report pv t sign r)
          = (cache, [], [⟨4, pv, t, .report r, sign⟩])) ∧
    (cache.lookup b.dev_id = none →
        on_message cache (.biz pv t sign b)
          = (cache, [], [⟨20, pv, t, .biz b, sign⟩])) := by
  constructor
  · intro h; simp [on_message, decode_frame, process_socket, h]
  · intro h
    cases hb : b.biz_data <;>
      simp [on_message, decode_frame, process_socket, h, hb]

theorem claim_C10_uncached_frames_witness :
    on_message [] (.report "pv" 3 "sig" ⟨"d1", "dev", "pk", []⟩)
      = ([], [], [⟨4, "pv", 3, .report ⟨"d1", "dev", "pk", []⟩, "sig"⟩]) ∧
    on_message [] (.biz "pv" 3 "sig" ⟨"dev", "pk", "online", .presence 5⟩)
      = ([], [], [⟨20, "pv", 3, .biz ⟨"dev", "pk", "online", .presence 5⟩, "sig"⟩]) :=
  ⟨(claim_C10_uncached_frames [] "pv" 3 "sig" ⟨"d1", "dev", "pk", []⟩
      ⟨"dev", "pk", "online", .presence 5⟩).1 rfl,
   (claim_C10_uncached_frames [] "pv" 3 "sig" ⟨"d1", "dev", "pk", []⟩
      ⟨"dev", "pk", "online", .presence 5⟩).2 rfl⟩

/-- C1 counterexample: in the run disconnected@0s, disconnected@30s,
connected@70s the first "disconnected" event is followed by no "connected"
event during the next 60 seconds, yet no prompt is ever issued — the second
"disconnected" restarts the 60-second timer and the connect at 70s cancels it
before the restarted timer elapses. This refutes the claim as stated. -/
theorem claim_C1_counterexample :
    (((0:Nat), PresenceState.disconnected)
        ∈ [((0:Nat), PresenceState.disconnected), (30, .disconnected), (70, .connected)]) ∧
    (∀ ev ∈ [((0:Nat), PresenceState.disconnected), (30, .disconnected), (70, .connected)],
        ev.2 = PresenceState.connected → ¬ ev.1 ≤ 60) ∧
    (room_run [((0:Nat), PresenceState.disconnected), (30, .disconnected), (70, .connected)]
        200).prompts = 0 := by
  decide

/-- C1 (amended): each "disconnected" event (re)starts the 60-second timer.
If a run ends with a "disconnected" event and the clock then reaches 60
seconds past it with no further presence event, exactly one additional
confirmation prompt is issued; if a "connected" event arrives before those 60
seconds elapse, the prompt for that arming is never issued. -/
theorem claim_C1_room_close (es : List (Nat × PresenceState)) (t : Nat) :
    (∀ horizon : Nat, t + 60 ≤ horizon →
        (room_run (es ++ [(t, .disconnected)]) horizon).prompts
          = (room_run es t).prompts + 1) ∧
    (∀ t2 horizon : Nat, t2 < t + 60 →
        (room_run (es ++ [(t, .disconnected), (t2, .connected)]) horizon).prompts
          = (room_run es t).prompts) := by
  constructor
  · intro horizon h
    simp only [room_run, List.foldl_append, List.foldl_cons, List.foldl_nil]
    simp [room_step, room_fire, h]
  · intro t2 horizon h
    have h2 : ¬ (t + 60 ≤ t2) := by omega
    simp only [room_run, List.foldl_append, List.foldl_cons, List.foldl_nil]
    simp [room_step, room_fire, h2]

theorem claim_C1_room_close_witness :
    (room_run [((0:Nat), PresenceState.disconnected)] 60).prompts
      = (room_run [] 0).prompts + 1 ∧
    (room_run [((0:Nat), PresenceState.disconnected), (30, .connected)] 200).prompts
      = (room_run [] 0).prompts :=
  ⟨(claim_C1_room_close [] 0).1 60 (by decide),
   (claim_C1_room_close [] 0).2 30 200 (by decide)⟩

/-- C9: a 403 on a presence-socket connection attempt triggers exactly one
credential exchange (producing a fresh token) before the next connection
attempt, with no backoff delay in between, while the next attempt — when one
happens — uses the refreshed token. -/
theorem claim_C9_presence_reauth :
    (∀ (st : PresenceSt) (pre post : List ConnOutcome),
        presence_trace st (pre ++ .forbidden :: post)
          = presence_trace st pre
            ++ [.attempt (presence_after st pre).token, .reauth]
            ++ presence_trace ⟨(presence_after st pre).level,
                               (presence_after st pre).token + 1⟩ post) ∧
    (∀ (st : PresenceSt) (o : ConnOutcome) (rest : List ConnOutcome),
        ∃ tail, presence_trace st (o :: rest) = .attempt st.token :: tail) := by
  constructor
  · intro st pre post
    induction pre generalizing st with
    | nil => simp [presence_trace, presence_actions, presence_step, presence_after]
    | cons o pre ih =>
      simp only [List.cons_append, presence_trace, presence_after, List.foldl_cons,
        List.append_eq]
      rw [ih]
      simp [presence_after, presence_trace, List.append_assoc]
  · intro st o rest
    cases o <;> exact ⟨_, rfl⟩

theorem countP_map_le (f : RefreshTask → RefreshTask) (p q : RefreshTask → Bool)
    (l : List RefreshTask) (h : ∀ a, p (f a) = true → q a = true) :
    (l.map f).countP p ≤ l.countP q := by
  induction l with
  | nil => simp
  | cons x xs ih =>
    simp only [List.map_cons, List.countP_cons]
    by_cases hpx : p (f x) = true
    · rw [if_pos hpx, if_pos (h x hpx)]
      omega
    · rw [if_neg hpx]
      by_cases hqx : q x = true
      · rw [if_pos hqx]; omega
      · rw [if_neg hqx]; omega

theorem update_device_active_le (tasks : List RefreshTask) (now : Nat)
    (dev_id id : String) (h : tasks.countP (task_active id) ≤ 1) :
    (update_device tasks now dev_id).countP (task_active id) ≤ 1 := by
  simp only [update_device, List.countP_append]
  by_cases hid : dev_id = id
  · subst hid
    have hzero : ((fire_due now tasks).map (fun task =>
        if task.dev_id = dev_id ∧ task.cancelled = false ∧ task.fired = false then
          { task with cancelled := true }
        else task)).countP (task_active dev_id) = 0 := by
      rw [List.countP_eq_zero]
      intro a ha
      simp only [List.mem_map] at ha
      obtain ⟨b, _, rfl⟩ := ha
      by_cases hb : b.dev_id = dev_id ∧ b.cancelled = false ∧ b.fired = false
      · simp [task_active, hb]
      · simp only [if_neg hb]
        simp only [task_active, decide_eq_true_eq]
        intro hcontra
        exact hb hcontra
    rw [hzero]
    simp [task_active]
  · have step1 : ((fire_due now tasks).map (fun task =>
        if task.dev_id = dev_id ∧ task.cancelled = false ∧ task.fired = false then
          { task with cancelled := true }
        else task)).countP (task_active id) ≤ (fire_due now tasks).countP (task_active id) := by
      apply countP_map_le
      intro a ha
      by_cases hb : a.dev_id = dev_id ∧ a.cancelled = false ∧ a.fired = false
      · rw [if_pos hb] at ha
        simp only [task_active, decide_eq_true_eq] at ha
        exact absurd ha.2.1 (by simp)
      · rwa [if_neg hb] at ha
    have step2 : (fire_due now tasks).countP (task_active id)
        ≤ tasks.countP (task_active id) := by
      apply countP_map_le
      intro a ha
      by_cases hb : a.cancelled = false ∧ a.fired = false ∧ a.fire_at ≤ now
      · rw [if_pos hb] at ha
        simp only [task_active, decide_eq_true_eq] at ha
        exact absurd ha.2.2 (by simp)
      · rwa [if_neg hb] at ha
    have hnew : [(⟨dev_id, now + 1000, false, false⟩ : RefreshTask)].countP
        (task_active id) = 0 := by
      simp [task_active, hid]
    omega

/-- C3: two update triggers for the same device id within the 1000 ms debounce
window leave the earlier deferred refresh cancelled and produce exactly one
performed refresh, scheduled 1000 ms after the later trigger (so it renders
the later state); and over any trigger sequence at most one pending refresh
task exists per device id. -/
theorem claim_C3_debounce :
    (∀ (t1 t2 horizon : Nat) (i : String), t2 < t1 + 1000 → t2 + 1000 ≤ horizon →
        fire_due horizon (update_device (update_device [] t1 i) t2 i)
          = [⟨i, t1 + 1000, true, false⟩, ⟨i, t2 + 1000, false, true⟩]) ∧
    (∀ (trigs : List (Nat × String)) (i : String),
        (run_updates trigs).countP (task_active i) ≤ 1) := by
  constructor
  · intro t1 t2 horizon i h1 h2
    have h3 : ¬ (t1 + 1000 ≤ t2) := by omega
    simp [update_device, fire_due, h3, h2]
  · intro trigs i
    have main : ∀ (ts : List (Nat × String)) (tasks : List RefreshTask),
        tasks.countP (task_active i) ≤ 1 →
        (ts.foldl (fun tasks trig => update_device tasks trig.1 trig.2)
            tasks).countP (task_active i) ≤ 1 := by
      intro ts
      induction ts with
      | nil => intro tasks h; simpa using h
      | cons trig ts ih =>
        intro tasks h
        exact ih _ (update_device_active_le _ _ _ _ h)
    exact main trigs [] (by simp)

theorem claim_C3_debounce_witness :
    fire_due 2000 (update_device (update_device [] 0 "d") 500 "d")
      = [⟨"d", 1000, true, false⟩, ⟨"d", 1500, false, true⟩] ∧
    (run_updates [(0, "d"), (500, "d")]).countP (task_active "d") ≤ 1 :=
  ⟨claim_C3_debounce.1 0 500 2000 "d" (by decide) (by decide),
   claim_C3_debounce.2 [(0, "d"), (500, "d")] "d"⟩

theorem lookup_map_keyfix (mem : List (String × ViewData)) (d k : String)
    (v : ViewData) :
    ((mem.map (fun p => if p.1 = d then (p.1, v) else p)).lookup k).isSome
      = (mem.lookup k).isSome := by
  induction mem with
  | nil => rfl
  | cons q rest ih =>
    obtain ⟨qk, qv⟩ := q
    simp only [List.map_cons]
    by_cases hq : qk = d
    · rw [if_pos (show (qk, qv).1 = d from hq)]
      simp only [List.lookup]
      cases hk : k == qk <;> simp [hk, ih]
    · rw [if_neg (show ¬ (qk, qv).1 = d from hq)]
      simp only [List.lookup]
      cases hk : k == qk <;> simp [hk, ih]

theorem lookup_append_isSome (mem tail : List (String × ViewData)) (k : String) :
    ((mem ++ tail).lookup k).isSome
      = ((mem.lookup k).isSome || (tail.lookup k).isSome) := by
  induction mem with
  | nil => simp
  | cons q rest ih =>
    simp only [List.cons_append, List.lookup]
    cases hk : k == q.1 <;> simp [hk, ih]

/-- C8: under the binding invariant (one persisted row per device, every row
backed by an in-memory entry), `store_data` preserves the invariant, leaves
the new (device, author, message, channel) row as the unique persisted row
for the device, and deletes the prior panel message when one was bound. -/
theorem claim_C8_binding_unique (st : PanelState) (author : Int) (d : String)
    (mid chid : Int) (hinv : PanelInv st) :
    PanelInv (store_data st author d mid chid) ∧
    (store_data st author d mid chid).db.filter (fun r => r.device_id = d)
      = [⟨d, author, mid, chid⟩] ∧
    (∀ vd, st.mem.lookup d = some vd →
        vd.message_id ∈ (store_data st author d mid chid).deleted) := by
  obtain ⟨hnd, hcov⟩ := hinv
  cases hm : st.mem.lookup d with
  | none =>
    have hnotin : ∀ r ∈ st.db, r.device_id ≠ d := by
      intro r hr hrd
      have := hcov r hr
      rw [hrd, hm] at this
      simp at this
    refine ⟨⟨?_, ?_⟩, ?_, ?_⟩
    · simp only [store_data, hm, List.map_append, List.map_cons, List.map_nil]
      rw [List.nodup_append]
      refine ⟨hnd, by simp, ?_⟩
      intro a ha hb
      simp only [List.mem_map] at ha
      obtain ⟨r, hr, rfl⟩ := ha
      simp only [List.mem_singleton] at hb
      exact hnotin r hr hb
    · intro r hr
      simp only [store_data, hm] at hr ⊢
      rw [lookup_append_isSome]
      rcases List.mem_append.mp hr with hl | hnew
      · rw [hcov r hl]
        simp
      · simp only [List.mem_singleton] at hnew
        subst hnew
        simp [List.lookup]
    · simp only [store_data, hm, List.filter_append]
      rw [List.filter_eq_nil_iff.mpr, List.nil_append]
      · simp
      · intro r hr
        simp only [decide_eq_true_eq]
        exact hnotin r hr
    · intro vd hvd
      simp at hvd
  | some vd0 =>
    have hfsub : List.Sublist (st.db.filter (fun r => r.device_id ≠ d)) st.db :=
      List.filter_sublist st.db
    have hfne : ∀ r ∈ st.db.filter (fun r => r.device_id ≠ d), r.device_id ≠ d := by
      intro r hr
      have := List.of_mem_filter hr
      simpa using this
    refine ⟨⟨?_, ?_⟩, ?_, ?_⟩
    · simp only [store_data, hm, List.map_append, List.map_cons, List.map_nil]
      rw [List.nodup_append]
      refine ⟨List.Nodup.sublist (hfsub.map (fun r => r.device_id)) hnd, by simp, ?_⟩
      intro a ha hb
      simp only [List.mem_map] at ha
      obtain ⟨r, hr, rfl⟩ := ha
      simp only [List.mem_singleton] at hb
      exact hfne r hr hb
    · intro r hr
      simp only [store_data, hm] at hr ⊢
      rw [lookup_map_keyfix]
      rcases List.mem_append.mp hr with hl | hnew
      · exact hcov r (hfsub.subset hl)
      · simp only [List.mem_singleton] at hnew
        subst hnew
        rw [hm]
        rfl
    · simp only [store_data, hm, List.filter_append]
      rw [List.filter_eq_nil_iff.mpr, List.nil_append]
      · simp
      · intro r hr
        simp only [decide_eq_true_eq]
        exact hfne r hr
    · intro vd hvd
      injection hvd with hv
      subst hv
      simp [store_data, hm]

theorem claim_C8_binding_unique_witness :
    PanelInv (store_data ⟨[⟨"a", 1, 2, 3⟩], [("a", ⟨2, 3, 1⟩)], []⟩ 9 "a" 10 11) ∧
    (store_data ⟨[⟨"a", 1, 2, 3⟩], [("a", ⟨2, 3, 1⟩)], []⟩ 9 "a" 10 11).db.filter
        (fun r => r.device_id = "a") = [⟨"a", 9, 10, 11⟩] ∧
    ((2:Int) ∈ (store_data ⟨[⟨"a", 1, 2, 3⟩], [("a", ⟨2, 3, 1⟩)],
        []⟩ 9 "a" 10 11).deleted) :=
  ⟨(claim_C8_binding_unique _ 9 "a" 10 11 ⟨by decide, by decide⟩).1,
   (claim_C8_binding_unique _ 9 "a" 10 11 ⟨by decide, by decide⟩).2.1,
   (claim_C8_binding_unique _ 9 "a" 10 11 ⟨by decide, by decide⟩).2.2 ⟨2, 3, 1⟩ rfl⟩

end IoTSpec
